import Mathlib

/-!
Verification of the transcript-projection core of the Captains-Log repository.

The reproducible core is the notebook fragment

    transcript_df = pd.DataFrame(result['segments'])
    transcript_df = transcript_df[['start', 'end', 'text']]

We embed it shallowly: a whisper segment is a Python dict, modelled as an
association list from field names to values; `pd.DataFrame` applied to a list
of dicts builds a frame whose columns are the union of the dicts' keys in
order of first appearance, with missing entries rendered as NaN (here `none`);
column selection `df[[...]]` returns the chosen columns in the requested
order, raising `KeyError` when a requested label is absent from the frame's
columns; subscripting a `None` result raises `TypeError`.
-/

set_option autoImplicit false

namespace CaptainsLog

/-- A scalar cell value of a segment dict: whisper segments carry
floating-point timestamps (modelled as rationals) and strings. -/
inductive Value where
  | num (q : ℚ)
  | str (s : String)
deriving DecidableEq

/-- A Python dict, as whisper returns for each segment: field name to value. -/
def Dict : Type := List (String × Value)

instance : DecidableEq Dict := by unfold Dict; infer_instance

/-- The keys of a dict, in order. -/
def dictKeys (d : Dict) : List String := d.map Prod.fst

/-- Python dict lookup: the value stored under a key, when present. -/
def dictGet (d : Dict) (k : String) : Option Value := List.lookup k d

/-- The raw output of `model.transcribe(...)`: a full-text field and an
ordered list of segment dicts (the fields the notebook reads). -/
structure TranscriptionResult where
  text : String
  segments : List Dict
deriving DecidableEq

/-- A pandas DataFrame over segment data: named columns and rows aligned
with them; a `none` cell is a NaN produced for a missing dict entry. -/
structure DataFrame where
  columns : List String
  rows : List (List (Option Value))
deriving DecidableEq

/-- The exceptions the two notebook lines can raise: `TypeError` from
subscripting a `None` result, `KeyError` from selecting an absent column. -/
inductive ProjErr where
  | typeError
  | keyError
deriving DecidableEq

instance (ε α : Type) [DecidableEq ε] [DecidableEq α] :
    DecidableEq (Except ε α) := fun x y =>
  match x, y with
  | .ok a, .ok b =>
    if h : a = b then .isTrue (by rw [h])
    else .isFalse fun hc => h (Except.ok.inj hc)
  | .ok _, .error _ => .isFalse fun hc => Except.noConfusion hc
  | .error _, .ok _ => .isFalse fun hc => Except.noConfusion hc
  | .error e, .error f =>
    if h : e = f then .isTrue (by rw [h])
    else .isFalse fun hc => h (Except.error.inj hc)

/-- Append a key to a column list unless already present (pandas collects
the union of dict keys in order of first appearance). -/
def insertKey (acc : List String) (k : String) : List String :=
  if k ∈ acc then acc else acc ++ [k]

/-- Columns of `pd.DataFrame(list_of_dicts)`: union of the dicts' keys in
order of first appearance. -/
def unionCols (segs : List Dict) : List String :=
  segs.foldl (fun acc d => (dictKeys d).foldl insertKey acc) []

/-- `pd.DataFrame(segs)` for a list of dicts: one row per dict, aligned with
the union of keys; a dict missing a column contributes NaN (`none`) there. -/
def pdDataFrame (segs : List Dict) : DataFrame :=
  ⟨unionCols segs, segs.map fun d => (unionCols segs).map fun c => dictGet d c⟩

/-- The cell of a row (aligned with `cols`) under column label `c`. -/
def getCell (cols : List String) (row : List (Option Value)) (c : String) :
    Option Value :=
  (List.lookup c (cols.zip row)).join

/-- `df[cols]`: select the named columns in the requested order; pandas
raises `KeyError` when any requested label is absent from `df.columns`. -/
def selectCols (df : DataFrame) (cols : List String) :
    Except ProjErr DataFrame :=
  if ∀ c ∈ cols, c ∈ df.columns then
    .ok ⟨cols, df.rows.map fun r => cols.map fun c => getCell df.columns r c⟩
  else
    .error .keyError

/-- The projector: the two notebook lines.  `result` may be absent (`none`),
in which case `result['segments']` raises `TypeError`; otherwise build the
frame from the segments and select the three display columns. -/
def project (result : Option TranscriptionResult) :
    Except ProjErr DataFrame :=
  match result with
  | none => .error .typeError
  | some r => selectCols (pdDataFrame r.segments) ["start", "end", "text"]

/-- The row the projection derives from a single segment dict. -/
def rowOf (d : Dict) : List (Option Value) :=
  [dictGet d "start", dictGet d "end", dictGet d "text"]

/-- A segment dict carries all three required fields. -/
def hasAllFields (d : Dict) : Bool :=
  ((dictGet d "start").isSome && (dictGet d "end").isSome)
    && (dictGet d "text").isSome

/-- A valid TranscriptionResult: every segment has start, end and text. -/
def validResult (r : TranscriptionResult) : Bool :=
  r.segments.all hasAllFields

/-! ### Concrete inputs used to instantiate the theorems -/

/-- A well-formed segment, as in the notebook example output. -/
def segA : Dict :=
  [("start", Value.num 0), ("end", Value.num 7), ("text", Value.str " hello")]

/-- A second well-formed segment. -/
def segB : Dict :=
  [("start", Value.num 7), ("end", Value.num 14), ("text", Value.str " world")]

/-- A segment that lacks the required `text` field. -/
def segNoText : Dict :=
  [("start", Value.num 0), ("end", Value.num 1)]

/-- A segment with a negative start and `end < start`: the source never
validates timestamps. -/
def segWeird : Dict :=
  [("start", Value.num (-3)), ("end", Value.num (-5)), ("text", Value.str "x")]

/-- A segment carrying extra fields beyond the three displayed ones, as raw
whisper segments do. -/
def segExtra : Dict :=
  [("start", Value.num 1), ("end", Value.num 2), ("text", Value.str "y"),
    ("language", Value.str "en"), ("confidence", Value.num 1)]

/-- A result with no segments at all. -/
def rEmpty : TranscriptionResult := ⟨"", []⟩

/-- A result with two well-formed segments. -/
def rAB : TranscriptionResult := ⟨"hello world", [segA, segB]⟩

/-- The exact frame the projection produces from `rAB`. -/
def tAB : DataFrame :=
  ⟨["start", "end", "text"],
    [[some (Value.num 0), some (Value.num 7), some (Value.str " hello")],
      [some (Value.num 7), some (Value.num 14), some (Value.str " world")]]⟩

/-- A result whose two segments are duplicates of one another. -/
def rDup : TranscriptionResult := ⟨"", [segA, segA]⟩

/-- The exact frame the projection produces from `rDup`. -/
def tDup : DataFrame :=
  ⟨["start", "end", "text"],
    [[some (Value.num 0), some (Value.num 7), some (Value.str " hello")],
      [some (Value.num 0), some (Value.num 7), some (Value.str " hello")]]⟩

/-- A result with one unvalidated segment (negative, reversed timestamps). -/
def rWeird : TranscriptionResult := ⟨"x", [segWeird]⟩

/-- A result mixing a segment that lacks `text` with one that has it. -/
def rMixed : TranscriptionResult := ⟨"", [segNoText, segB]⟩

/-- The exact frame the projection produces from `rMixed`: note the NaN
(`none`) cell in the first row. -/
def tMixed : DataFrame :=
  ⟨["start", "end", "text"],
    [[some (Value.num 0), some (Value.num 1), none],
      [some (Value.num 7), some (Value.num 14), some (Value.str " world")]]⟩

/-- A result whose single segment carries extra fields. -/
def rExtra : TranscriptionResult := ⟨"y", [segExtra]⟩

/-- The exact frame the projection produces from `rExtra`: the extra fields
are gone. -/
def tExtra : DataFrame :=
  ⟨["start", "end", "text"],
    [[some (Value.num 1), some (Value.num 2), some (Value.str "y")]]⟩

/-- Two results sharing their segments but with different full-text
fields. -/
def rTextA : TranscriptionResult := ⟨"alpha", [segA, segB]⟩

/-- Companion of `rTextA` with another full-text field. -/
def rTextB : TranscriptionResult := ⟨"beta", [segA, segB]⟩

/-- A result sharing its first segment with `rAB` but differing in the
second. -/
def rAW : TranscriptionResult := ⟨"z", [segA, segWeird]⟩

/-- The exact frame the projection produces from `rAW`. -/
def tAW : DataFrame :=
  ⟨["start", "end", "text"],
    [[some (Value.num 0), some (Value.num 7), some (Value.str " hello")],
      [some (Value.num (-3)), some (Value.num (-5)), some (Value.str "x")]]⟩

/-- Every cell of the frame is populated (no NaN anywhere). -/
def allCellsSome (t : DataFrame) : Bool :=
  t.rows.all fun row => row.all Option.isSome

/-- State-passing embedding of one call to the projector: the notebook code
only reads `result` — `pd.DataFrame` copies the segment dicts' values into a
fresh frame and column selection allocates another — so the call hands its
input back unchanged beside the output. -/
def projectCall (ro : Option TranscriptionResult) :
    Option TranscriptionResult × Except ProjErr DataFrame :=
  (ro, project ro)

/-! ### Basic lemmas about dict lookup and column construction -/

theorem dictKeys_cons (k : String) (v : Value) (tl : List (String × Value)) :
    dictKeys ((k, v) :: tl : Dict) = k :: dictKeys tl := rfl

theorem dictGet_isSome_iff (d : Dict) (c : String) :
    (dictGet d c).isSome = true ↔ c ∈ dictKeys d := by
  induction d with
  | nil => simp [dictGet, dictKeys, List.lookup]
  | cons p tl ih =>
    obtain ⟨k, v⟩ := p
    by_cases h : c = k
    · subst h
      simp [dictGet, dictKeys_cons, List.lookup]
    · have hb : (c == k) = false := beq_false_of_ne h
      simp only [dictGet, List.lookup, hb, dictKeys_cons, List.mem_cons] at ih ⊢
      tauto

theorem mem_insertKey (acc : List String) (k c : String) :
    c ∈ insertKey acc k ↔ c ∈ acc ∨ c = k := by
  unfold insertKey
  split
  · next h =>
    constructor
    · exact fun hc => Or.inl hc
    · rintro (hc | rfl) <;> assumption
  · simp [or_comm]

theorem mem_foldl_insertKey (ks : List String) (acc : List String)
    (c : String) :
    c ∈ ks.foldl insertKey acc ↔ c ∈ acc ∨ c ∈ ks := by
  induction ks generalizing acc with
  | nil => simp
  | cons k tl ih =>
    simp only [List.foldl_cons, ih, mem_insertKey, List.mem_cons]
    tauto

theorem mem_unionCols_aux (segs : List Dict) (acc : List String)
    (c : String) :
    c ∈ segs.foldl (fun a d => (dictKeys d).foldl insertKey a) acc ↔
      c ∈ acc ∨ ∃ d ∈ segs, c ∈ dictKeys d := by
  induction segs generalizing acc with
  | nil => simp
  | cons d tl ih =>
    simp only [List.foldl_cons, ih, mem_foldl_insertKey, List.mem_cons]
    constructor
    · rintro (⟨hc | hc⟩ | ⟨e, he, hc⟩)
      · exact Or.inl hc
      · exact Or.inr ⟨d, Or.inl rfl, hc⟩
      · exact Or.inr ⟨e, Or.inr he, hc⟩
    · rintro (hc | ⟨e, (rfl | he), hc⟩)
      · exact Or.inl (Or.inl hc)
      · exact Or.inl (Or.inr hc)
      · exact Or.inr ⟨e, he, hc⟩

theorem mem_unionCols (segs : List Dict) (c : String) :
    c ∈ unionCols segs ↔ ∃ d ∈ segs, c ∈ dictKeys d := by
  simpa using mem_unionCols_aux segs [] c

theorem getCell_map (cols : List String) (f : String → Option Value)
    (c : String) :
    getCell cols (cols.map f) c = if c ∈ cols then f c else none := by
  induction cols with
  | nil => simp [getCell, List.lookup]
  | cons a tl ih =>
    by_cases h : c = a
    · subst h
      simp [getCell, List.lookup]
    · have hb : (c == a) = false := beq_false_of_ne h
      simp only [getCell, List.map_cons, List.zip_cons_cons, List.lookup, hb,
        List.mem_cons] at ih ⊢
      simpa [h] using ih

theorem dictGet_eq_none_iff (d : Dict) (c : String) :
    dictGet d c = none ↔ c ∉ dictKeys d := by
  rw [← dictGet_isSome_iff]
  cases dictGet d c <;> simp

/-! ### Structural lemmas about the projection -/

theorem selectCols_ok_iff (segs : List Dict) (cols : List String) :
    (∃ t, selectCols (pdDataFrame segs) cols = .ok t) ↔
      ∀ c ∈ cols, c ∈ unionCols segs := by
  unfold selectCols pdDataFrame
  split
  · next h => exact ⟨fun _ => by simpa using h, fun _ => ⟨_, rfl⟩⟩
  · next h => simp_all

theorem selectCols_error_iff (segs : List Dict) (cols : List String) :
    (∃ e, selectCols (pdDataFrame segs) cols = .error e) ↔
      ¬ ∀ c ∈ cols, c ∈ unionCols segs := by
  unfold selectCols pdDataFrame
  split
  · next h => simp_all
  · next h => exact ⟨fun _ => by simpa using h, fun _ => ⟨_, rfl⟩⟩

theorem selectCols_ok_spec (segs : List Dict) (cols : List String)
    (t : DataFrame) (ht : selectCols (pdDataFrame segs) cols = .ok t) :
    t.columns = cols ∧
      t.rows = segs.map fun d => cols.map fun c => dictGet d c := by
  unfold selectCols pdDataFrame at ht
  split at ht
  · next h =>
    cases ht
    refine ⟨rfl, ?_⟩
    simp only [List.map_map]
    apply List.map_congr_left
    intro d _
    apply List.map_congr_left
    intro c hc
    simp only [Function.comp_apply, getCell_map, if_pos (h c hc)]
  · exact absurd ht (by simp)

theorem project_some (r : TranscriptionResult) :
    project (some r) =
      selectCols (pdDataFrame r.segments) ["start", "end", "text"] := rfl

theorem project_ok_spec (r : TranscriptionResult) (t : DataFrame)
    (ht : project (some r) = .ok t) :
    t.columns = ["start", "end", "text"] ∧
      t.rows = r.segments.map rowOf := by
  rw [project_some] at ht
  have h := selectCols_ok_spec r.segments ["start", "end", "text"] t ht
  refine ⟨h.1, ?_⟩
  rw [h.2]
  apply List.map_congr_left
  intro d _
  rfl

theorem project_ok_of_valid (r : TranscriptionResult)
    (hv : validResult r = true) (hne : r.segments ≠ []) :
    ∃ t, project (some r) = .ok t := by
  rw [project_some]
  refine (selectCols_ok_iff r.segments _).mpr ?_
  intro c hc
  obtain ⟨d, tl, hseg⟩ : ∃ d tl, r.segments = d :: tl := by
    cases hs : r.segments with
    | nil => exact absurd hs hne
    | cons d tl => exact ⟨d, tl, rfl⟩
  have hd : hasAllFields d = true := by
    unfold validResult at hv
    rw [hseg, List.all_cons, Bool.and_eq_true] at hv
    exact hv.1
  unfold hasAllFields at hd
  simp only [Bool.and_eq_true] at hd
  rw [mem_unionCols]
  refine ⟨d, by rw [hseg]; exact List.mem_cons_self d tl, ?_⟩
  rw [← dictGet_isSome_iff]
  simp only [List.mem_cons, List.not_mem_nil, or_false] at hc
  rcases hc with rfl | rfl | rfl
  · exact hd.1.1
  · exact hd.1.2
  · exact hd.2

/-! ### The claims -/

/-- Claim C1, counterexample. The claim quantifies over every valid
TranscriptionResult, a "possibly-empty" sequence of well-formed segments
included, and asserts a table is returned whose row count equals the segment
count.  On the empty (vacuously valid) segment sequence the code returns no
table at all: `pd.DataFrame([])` has no columns, so selecting
`['start','end','text']` raises `KeyError`. -/
theorem C1_empty_segments_fail :
    validResult rEmpty = true ∧ rEmpty.segments = [] ∧
      project (some rEmpty) = .error ProjErr.keyError := by
  exact ⟨by decide, by decide, by decide⟩

/-- Claim C1, amended: for every valid TranscriptionResult with a nonempty
segment sequence, `project` returns a table with exactly one row per input
segment, so the output row count equals the input segment count. -/
theorem C1_row_count (r : TranscriptionResult) (hv : validResult r = true)
    (hne : r.segments ≠ []) :
    ∃ t, project (some r) = .ok t ∧
      t.rows.length = r.segments.length := by
  obtain ⟨t, ht⟩ := project_ok_of_valid r hv hne
  exact ⟨t, ht, by rw [(project_ok_spec r t ht).2, List.length_map]⟩

/-- Witness for C1 at the two-segment result `rAB`. -/
theorem C1_row_count_witness :
    ∃ t, project (some rAB) = .ok t ∧
      t.rows.length = rAB.segments.length :=
  C1_row_count rAB (by decide) (by decide)

/-- Claim C2, confirmed: for a valid TranscriptionResult, the rows of a
table returned by `project` are exactly the input segments mapped in order
to their three-field rows — no permutation, no filtering, no deduplication
(duplicate segments each keep their own row). -/
theorem C2_row_order (r : TranscriptionResult) (t : DataFrame)
    (_hv : validResult r = true) (ht : project (some r) = .ok t) :
    t.rows = r.segments.map rowOf :=
  (project_ok_spec r t ht).2

/-- Witness for C2 at `rDup`, whose two segments are duplicates: both rows
survive, in order. -/
theorem C2_row_order_witness :
    tDup.rows = rDup.segments.map rowOf :=
  C2_row_order rDup tDup (by decide) (by decide)

/-- Claim C3, confirmed: for a valid TranscriptionResult (nonempty, since
the empty sequence fails as recorded at C1), `project` succeeds and each
output row carries exactly the segment's `start`, `end` and `text` values,
passed through unchanged; validity never constrains the timestamps, so
segments with `end < start` or negative times are accepted as-is. -/
theorem C3_field_passthrough (r : TranscriptionResult)
    (hv : validResult r = true) (hne : r.segments ≠ []) :
    ∃ t, project (some r) = .ok t ∧
      t.rows = r.segments.map fun d =>
        [dictGet d "start", dictGet d "end", dictGet d "text"] := by
  obtain ⟨t, ht⟩ := project_ok_of_valid r hv hne
  exact ⟨t, ht, (project_ok_spec r t ht).2⟩

/-- Witness for C3 at `rWeird`, whose only segment has a negative start and
`end < start`: it is accepted and passed through exactly. -/
theorem C3_field_passthrough_witness :
    ∃ t, project (some rWeird) = .ok t ∧
      t.rows = rWeird.segments.map fun d =>
        [dictGet d "start", dictGet d "end", dictGet d "text"] :=
  C3_field_passthrough rWeird (by decide) (by decide)

/-- Claim C4, confirmed: every table `project` returns has exactly the three
columns `start`, `end`, `text` in that order, and each row is the
three-field projection of its segment — any extra fields a segment carries
(language, confidence, ...) are absent from the output. -/
theorem C4_columns_exact (r : TranscriptionResult) (t : DataFrame)
    (ht : project (some r) = .ok t) :
    t.columns = ["start", "end", "text"] ∧
      t.rows = r.segments.map rowOf :=
  project_ok_spec r t ht

/-- Witness for C4 at `rExtra`, whose segment carries `language` and
`confidence` fields: the output has only the three display columns. -/
theorem C4_columns_exact_witness :
    tExtra.columns = ["start", "end", "text"] ∧
      tExtra.rows = rExtra.segments.map rowOf :=
  C4_columns_exact rExtra tExtra (by decide)

/-- Claim C5, counterexample. The claim says `project` fails exactly when
the result is null or some segment lacks a required field, and that empty
segments yield an empty table.  Both directions fail on the code: the empty
(valid) segment sequence raises `KeyError`; and `rMixed`, whose first
segment lacks `text` while the second supplies it, succeeds with a NaN cell
instead of failing. -/
theorem C5_claim_false :
    (validResult rEmpty = true ∧
      project (some rEmpty) = .error ProjErr.keyError) ∧
      (dictGet segNoText "text" = none ∧
        project (some rMixed) = .ok tMixed) :=
  ⟨⟨by decide, by decide⟩, by decide, by decide⟩

/-- Claim C5, amended: `project` fails exactly when the result is absent
(`TypeError`) or some required column (`start`, `end` or `text`) is carried
by no segment at all (`KeyError`) — in particular the empty segment sequence
fails, while a segment missing a field that another segment supplies does
not cause a failure. -/
theorem C5_error_condition (ro : Option TranscriptionResult) :
    (∃ e, project ro = .error e) ↔
      ro = none ∨ ∃ r, ro = some r ∧ ∃ c ∈ ["start", "end", "text"],
        ∀ d ∈ r.segments, dictGet d c = none := by
  cases ro with
  | none => simp [project]
  | some r =>
    rw [project_some]
    constructor
    · intro h
      rw [selectCols_error_iff] at h
      push_neg at h
      obtain ⟨c, hc, hcu⟩ := h
      refine Or.inr ⟨r, rfl, c, hc, ?_⟩
      intro d hd
      rw [dictGet_eq_none_iff]
      intro hk
      exact hcu ((mem_unionCols r.segments c).mpr ⟨d, hd, hk⟩)
    · rintro (h | ⟨r2, hr2, c, hc, hall⟩)
      · exact absurd h (by simp)
      · obtain rfl : r = r2 := Option.some.inj hr2
        rw [selectCols_error_iff]
        intro hfa
        obtain ⟨d, hd, hk⟩ := (mem_unionCols r.segments c).mp (hfa c hc)
        exact (dictGet_eq_none_iff d c).mp (hall d hd) hk

/-- Claim C6, counterexample. The claim says `project` never returns a
partially populated table; but on `rMixed` it returns a table whose first
row has a NaN (`none`) in the `text` cell. -/
theorem C6_partial_table_returned :
    project (some rMixed) = .ok tMixed ∧
      tMixed.rows[0]? =
        some [some (Value.num 0), some (Value.num 1), none] :=
  ⟨by decide, by decide⟩

/-- Claim C6, amended: `project` either fails or returns a table with
exactly one row per segment in input order; a returned row can carry missing
(NaN) cells when its segment lacks a field another segment supplies, but
when every segment carries all three required fields, every cell of the
returned table is populated. -/
theorem C6_complete_or_fail (r : TranscriptionResult) (t : DataFrame)
    (ht : project (some r) = .ok t) :
    t.rows.length = r.segments.length ∧
      (validResult r = true → allCellsSome t = true) := by
  have h := (project_ok_spec r t ht).2
  refine ⟨by rw [h, List.length_map], ?_⟩
  intro hv
  unfold allCellsSome
  rw [h, List.all_eq_true]
  intro row hrow
  obtain ⟨d, hd, rfl⟩ := List.mem_map.mp hrow
  have hall : hasAllFields d = true := by
    unfold validResult at hv
    rw [List.all_eq_true] at hv
    exact hv d hd
  unfold hasAllFields at hall
  simp only [Bool.and_eq_true] at hall
  rw [List.all_eq_true]
  intro cell hcell
  unfold rowOf at hcell
  simp only [List.mem_cons, List.not_mem_nil, or_false] at hcell
  rcases hcell with rfl | rfl | rfl
  · exact hall.1.1
  · exact hall.1.2
  · exact hall.2

/-- Witness for the amended C6 at `rAB`: a fully populated two-row table. -/
theorem C6_complete_or_fail_witness :
    tAB.rows.length = rAB.segments.length ∧
      (validResult rAB = true → allCellsSome tAB = true) :=
  C6_complete_or_fail rAB tAB (by decide)

/-- Claim C7, confirmed: the projection is a pure function of its input — in
the embedding it carries no state parameter, since the code reads only its
argument and allocates fresh frames — so two calls on the same input return
structurally equal outputs: any two tables produced from the same input
coincide. -/
theorem C7_deterministic (ro : Option TranscriptionResult)
    (t1 t2 : DataFrame) (h1 : project ro = .ok t1)
    (h2 : project ro = .ok t2) : t1 = t2 := by
  rw [h1] at h2
  exact Except.ok.inj h2

/-- Witness for C7: two calls on `rAB` both return `tAB`. -/
theorem C7_deterministic_witness : tAB = tAB :=
  C7_deterministic (some rAB) tAB tAB (by decide) (by decide)

/-- Claim C8, confirmed: the output depends only on the `segments` field —
the code reads `result['segments']` and nothing else — so two results with
equal segments and different full-text fields project to the same table. -/
theorem C8_segments_only (r1 r2 : TranscriptionResult)
    (hseg : r1.segments = r2.segments) :
    project (some r1) = project (some r2) := by
  rw [project_some, project_some, hseg]

/-- Witness for C8: `rTextA` and `rTextB` differ in their full-text field
yet project identically. -/
theorem C8_segments_only_witness :
    rTextA.text ≠ rTextB.text ∧
      project (some rTextA) = project (some rTextB) :=
  ⟨by decide, C8_segments_only rTextA rTextB (by decide)⟩

/-- Claim C9, confirmed: the projection never mutates its input — the
notebook code performs no write into `result` or its segment dicts, which
the state-passing embedding `projectCall` reflects by returning the input
unchanged beside the output table. -/
theorem C9_no_mutation (ro : Option TranscriptionResult) :
    (projectCall ro).1 = ro ∧ (projectCall ro).2 = project ro :=
  ⟨rfl, rfl⟩

/-- Claim C10, confirmed: the projection is a per-element map — whenever two
inputs agree on their i-th segment, any tables returned for them agree on
their i-th row, so row i is determined by segment i alone. -/
theorem C10_pointwise (r1 r2 : TranscriptionResult) (t1 t2 : DataFrame)
    (i : ℕ) (h1 : project (some r1) = .ok t1)
    (h2 : project (some r2) = .ok t2)
    (hseg : r1.segments[i]? = r2.segments[i]?) :
    t1.rows[i]? = t2.rows[i]? := by
  rw [(project_ok_spec r1 t1 h1).2, (project_ok_spec r2 t2 h2).2,
    List.getElem?_map, List.getElem?_map, hseg]

/-- Witness for C10: `rAB` and `rAW` share segment 0 and differ at segment
1; their tables share row 0. -/
theorem C10_pointwise_witness :
    tAB.rows[0]? = tAW.rows[0]? :=
  C10_pointwise rAB rAW tAB tAW 0 (by decide) (by decide) (by decide)

end CaptainsLog
